import Mathlib

/-!
Verification of the barbican build-orchestration core against its design
specification.  The Lean definitions below are a shallow embedding of the
Python sources:

* `pyledger/outpost/_internals/meson_package_dyndep.py` (dynamic-dependency
  synthesizer),
* `pyledger/outpost/relocation/task_meta.py` (task-descriptor codec:
  `JobFlags`, `TaskHandle`, `TaskMeta`),
* `pyledger/outpost/buildsys/ninja_backend.py` (build-graph generator),
* `pyledger/outpost/package/package.py` (package model).

Python strings are modelled as `String`, Python lists as `List`, Python sets
as `Finset`, Python dicts either as association lists (preserving the source's
access pattern) or as `Option`-valued fields for optional keys.  Machine
integers are `Nat` with explicit masking where the source masks.
-/

namespace Barbican

/-! ## Path and string helpers (model of Python `str` slicing and `pathlib`) -/

/-- Model of the Python slice `f[1:]`: every character of `f` except the
first (the empty string stays empty). -/
def strTail (f : String) : String := String.mk f.data.tail

/-- Whether a path string begins with the POSIX separator `/` — this is what
decides absoluteness for `pathlib.PurePosixPath`. -/
def leadingSep (f : String) : Bool := f.data.head? == some '/'

/-- Model of `pathlib`'s `a / b` on POSIX paths for the joins performed by the
synthesizer: an empty right operand is ignored, an absolute right operand
replaces the left one, otherwise the two are joined with a single separator
(the staging directory handed to the synthesizer has no trailing separator). -/
def pathJoin (a b : String) : String :=
  if b.data = [] then a
  else if leadingSep b then b
  else a ++ "/" ++ b

/-- Spec-side helper, following the specification's words "after stripping its
leading separator": removes the first character only when it is a separator. -/
def stripLeadingSep (f : String) : String :=
  if leadingSep f then strTail f else f

/-! ## Introspection snapshot (`meson introspect --all` data consumed by
`_gen_ninja_dyndep_file`).  Optional JSON keys are `Option` fields. -/

/-- One entry of a target's `target_sources` list; the `sources` and
`generated_sources` keys may be absent. -/
structure TargetSources where
  sources : Option (List String)
  generated_sources : Option (List String)
deriving DecidableEq

/-- One entry of the snapshot's `targets` list; the `target_sources` key may
be absent. -/
structure BuildTarget where
  target_sources : Option (List TargetSources)
deriving DecidableEq

/-- The introspection snapshot: build-system description files, build targets,
and the installed map (file path ↦ install destination), kept as an
association list. -/
structure Introspect where
  buildsystem_files : List String
  targets : List BuildTarget
  installed : List (String × String)
deriving DecidableEq

/-- The `package_sources` accumulation loop of `_gen_ninja_dyndep_file`:
for each target having `target_sources`, append its `sources` then its
`generated_sources`. -/
def packageSources (i : Introspect) : List String :=
  i.targets.flatMap fun t =>
    (t.target_sources.getD []).flatMap fun ts =>
      ts.sources.getD [] ++ ts.generated_sources.getD []

/-- The dynamic-dependency declaration: implicit input/output sets for the
compile and install edges of one package (§3 DyndepDeclaration). -/
structure DyndepDecl where
  compile_implicit_inputs : Finset String
  compile_implicit_outputs : Finset String
  install_implicit_inputs : Finset String
  install_implicit_outputs : Finset String
deriving DecidableEq

/-- The set computations of `_gen_ninja_dyndep_file`:
`compile_implicit_outputs = set(installed.keys())`;
`compile_implicit_inputs = set(buildsystem_files + sources)` with the compile
implicit outputs removed (`difference_update`);
`install_implicit_inputs = compile_implicit_outputs`;
`install_implicit_outputs = {stagingdir / f[1:] for f in installed.values()}`. -/
def genDyndepDecl (stagingdir : String) (i : Introspect) : DyndepDecl :=
  let compile_implicit_outputs := (i.installed.map Prod.fst).toFinset
  { compile_implicit_outputs := compile_implicit_outputs
    compile_implicit_inputs :=
      (i.buildsystem_files ++ packageSources i).toFinset \ compile_implicit_outputs
    install_implicit_inputs := compile_implicit_outputs
    install_implicit_outputs :=
      (i.installed.map fun kv => pathJoin stagingdir (strTail kv.2)).toFinset }

/-! ## Dyndep serialization (`_add_build_target_dyndep`).

The Python function iterates two `set` objects; the order in which a Python
hash set of strings enumerates its elements is unspecified (it varies with the
interpreter's string-hash seed).  The serializer is therefore modelled as a
function of the enumeration orders actually used, given as lists. -/

/-- The exact byte sequence `_add_build_target_dyndep` writes for one target,
given the enumeration order of the implicit-output and implicit-input sets. -/
def addBuildTargetDyndep (target : String)
    (implicit_inputs implicit_output : List String) : String :=
  "build " ++ target
    ++ (if implicit_output.isEmpty then "" else " |")
    ++ String.join (implicit_output.map fun f => " $\n " ++ f)
    ++ ": dyndep"
    ++ (if implicit_inputs.isEmpty then "" else " |")
    ++ String.join (implicit_inputs.map fun f => " $\n " ++ f)
    ++ "\n" ++ "  restat = 1\n"

/-! ## `run_meson_package_dyndep` control flow.

`subprocess.run(..., check=True)` raises on a non-zero exit status and
`json.loads` raises on unparsable data; in both cases the exception
propagates before `_gen_ninja_dyndep_file` opens the output file, so nothing
is written.  The subprocess and the JSON parser are external collaborators:
they are modelled by the exit status of the introspection invocation and a
parse oracle for its captured output.  The declaration data reaching the
output file is the `Except.ok` payload; the error branches carry no payload,
which models the absence of a partial file. -/

/-- Failure modes of the dyndep synthesis command. -/
inductive DyndepFailure where
  | subprocess
  | parse
deriving DecidableEq

/-- Control flow of `run_meson_package_dyndep`: a non-zero introspection exit
status raises (check=True), then an unparsable payload raises (json.loads),
and only then is the declaration generated and written. -/
def runMesonPackageDyndep (exitStatus : Nat) (stdout : String)
    (parseJson : String → Option Introspect) (stagingdir : String) :
    Except DyndepFailure DyndepDecl :=
  if exitStatus ≠ 0 then .error .subprocess
  else
    match parseJson stdout with
    | none => .error .parse
    | some i => .ok (genDyndepDecl stagingdir i)

/-! ## Task-descriptor codec (`relocation/task_meta.py`).

The cstruct classes hold their data in fixed-width little-endian fields; the
bit-packed sub-fields `JobFlags.raw` and `TaskHandle.raw` are 32-bit unsigned
integers, modelled as `Nat` with the source's explicit masks.  The `#define`
constants of the cstruct definition blocks are kept as named definitions. -/

/-- Job start mode `JOB_FLAG_START_NOAUTO` (cstruct `#define`). -/
def JOB_FLAG_START_NOAUTO : Nat := 0

/-- Job start mode `JOB_FLAG_START_AUTO` (cstruct `#define`). -/
def JOB_FLAG_START_AUTO : Nat := 1

/-- Job exit mode `JOB_FLAG_EXIT_NORESTART` (cstruct `#define`). -/
def JOB_FLAG_EXIT_NORESTART : Nat := 0

/-- Job exit mode `JOB_FLAG_EXIT_RESTART` (cstruct `#define`). -/
def JOB_FLAG_EXIT_RESTART : Nat := 1

/-- Job exit mode `JOB_FLAG_EXIT_PANIC` (cstruct `#define`). -/
def JOB_FLAG_EXIT_PANIC : Nat := 2

/-- Job exit mode `JOB_FLAG_EXIT_PERIODICRESTART` (cstruct `#define`). -/
def JOB_FLAG_EXIT_PERIODICRESTART : Nat := 3

/-- Job exit mode `JOB_FLAG_EXIT_RESET` (cstruct `#define`). -/
def JOB_FLAG_EXIT_RESET : Nat := 4

/-- `JobFlags.autostart_mode` getter: `self.raw & 0x1 == JOB_FLAG_START_AUTO`. -/
def jobFlagsAutostartMode (raw : Nat) : Bool :=
  raw &&& 0x1 == JOB_FLAG_START_AUTO

/-- `JobFlags.autostart_mode` setter: clear bit 0
(`raw & 0xfffffffe`), then or in the start mode masked to one bit. -/
def jobFlagsSetAutostart (raw : Nat) (auto : Bool) : Nat :=
  let start_mode := if auto then JOB_FLAG_START_AUTO else JOB_FLAG_START_NOAUTO
  (raw &&& 0xfffffffe) ||| (start_mode &&& 0x1)

/-- `JobFlags.exit_mode` getter: `(self.raw >> 1) & 0x7`.  It is a plain
extraction of bits 1-3 with no validity check. -/
def jobFlagsExitMode (raw : Nat) : Nat := (raw >>> 1) &&& 0x7

/-- The `_exit_mode` name table of the `JobFlags.exit_mode` setter; an unknown
name raises `KeyError`, modelled as `none`. -/
def exitModeCode (mode : String) : Option Nat :=
  if mode = "norestart" then some JOB_FLAG_EXIT_NORESTART
  else if mode = "restart" then some JOB_FLAG_EXIT_RESTART
  else if mode = "panic" then some JOB_FLAG_EXIT_PANIC
  else if mode = "periodic" then some JOB_FLAG_EXIT_PERIODICRESTART
  else if mode = "reset" then some JOB_FLAG_EXIT_RESET
  else none

/-- The numeric core of the `JobFlags.exit_mode` setter: clear bits 1-3
(`raw & 0xfffffff1`), then or in `(mode & 0x7) << 1`. -/
def jobFlagsSetExitMode (raw mode : Nat) : Nat :=
  (raw &&& 0xfffffff1) ||| ((mode &&& 0x7) <<< 1)

/-- The full `JobFlags.exit_mode` setter: look the mode name up in the
`_exit_mode` table (raising on an unknown name), then update the field. -/
def jobFlagsSetExitModeByName (raw : Nat) (mode : String) : Option Nat :=
  (exitModeCode mode).map (jobFlagsSetExitMode raw)

/-- Unpacking a job-flags field into `(autostart, exit_mode)`: the pair of the
two property getters, which is all the decoding the source performs.  Both
getters are total — no error path exists. -/
def unpackJobFlags (raw : Nat) : Bool × Nat :=
  (jobFlagsAutostartMode raw, jobFlagsExitMode raw)

/-- `TaskHandle._id_shift`. -/
def taskHandleIdShift : Nat := 13

/-- `TaskHandle._id_mask = 0x0000ffff << _id_shift`. -/
def taskHandleIdMask : Nat := 0x0000ffff <<< taskHandleIdShift

/-- `TaskHandle.id` getter: `(self.raw & self._id_mask) >> self._id_shift`. -/
def taskHandleId (raw : Nat) : Nat :=
  (raw &&& taskHandleIdMask) >>> taskHandleIdShift

/-- `TaskHandle.id` setter: `raw = raw & ~mask; raw = raw | (id << shift & mask)`.
Python's `~mask` complements the 32-bit field contents; on a field value below
`2^32` it coincides with `0xffffffff ^^^ mask`, which is how it is written
here over `Nat`. -/
def taskHandleSetId (raw id : Nat) : Nat :=
  (raw &&& (0xffffffff ^^^ taskHandleIdMask)) |||
    ((id <<< taskHandleIdShift) &&& taskHandleIdMask)

/-! ## TaskMeta fixed-layout record.

cstruct with `__byte_order__ = LITTLE_ENDIAN` packs every field with the
`struct` module's standard sizes and no padding: `uint64_t` is 8 bytes,
`uint32_t`/`unsigned int`/`unsigned long` are 4 bytes, `uint16_t` 2 bytes,
`uint8_t`/`uint8` 1 byte; the nested `taskh_t`/`job_flags_t` structs are their
single 4-byte `raw` field.  Bytes are modelled as `Nat` values below 256. -/

/-- Little-endian byte serialization of a `w`-byte unsigned field. -/
def leBytes : Nat → Nat → List Nat
  | 0, _ => []
  | w + 1, v => v % 256 :: leBytes w (v / 256)

/-- Little-endian byte deserialization. -/
def fromLE : List Nat → Nat
  | [] => 0
  | b :: bs => b + 256 * fromLE bs

/-- The `TaskMeta` record, one field per cstruct member; the three fixed
arrays and the two 32-byte digests are lists (their lengths are constrained
by `TaskMeta.wf`). -/
structure TaskMeta where
  magic : Nat
  version : Nat
  handle : Nat
  priority : Nat
  quantum : Nat
  capabilities : Nat
  flags : Nat
  domain : Nat
  s_text : Nat
  text_size : Nat
  rodata_size : Nat
  data_size : Nat
  bss_size : Nat
  heap_size : Nat
  s_svcexchange : Nat
  stack_size : Nat
  entrypoint_offset : Nat
  finalize_offset : Nat
  num_shm : Nat
  shms : List Nat
  num_dev : Nat
  devs : List Nat
  num_dma : Nat
  dmas : List Nat
  task_hmac : List Nat
  metadata_hmac : List Nat
deriving DecidableEq

/-- Well-formedness: every field fits its declared width, the arrays have the
declared capacity 4 and the digests the declared 32 bytes. -/
def TaskMeta.wf (t : TaskMeta) : Prop :=
  t.magic < 2 ^ 64 ∧ t.version < 2 ^ 32 ∧ t.handle < 2 ^ 32 ∧
  t.priority < 2 ^ 8 ∧ t.quantum < 2 ^ 8 ∧ t.capabilities < 2 ^ 32 ∧
  t.flags < 2 ^ 32 ∧ t.domain < 2 ^ 8 ∧
  t.s_text < 2 ^ 32 ∧ t.text_size < 2 ^ 32 ∧ t.rodata_size < 2 ^ 32 ∧
  t.data_size < 2 ^ 32 ∧ t.bss_size < 2 ^ 32 ∧ t.heap_size < 2 ^ 32 ∧
  t.s_svcexchange < 2 ^ 32 ∧
  t.stack_size < 2 ^ 16 ∧ t.entrypoint_offset < 2 ^ 16 ∧
  t.finalize_offset < 2 ^ 16 ∧
  t.num_shm < 2 ^ 8 ∧ t.shms.length = 4 ∧ (∀ x ∈ t.shms, x < 2 ^ 32) ∧
  t.num_dev < 2 ^ 8 ∧ t.devs.length = 4 ∧ (∀ x ∈ t.devs, x < 2 ^ 32) ∧
  t.num_dma < 2 ^ 8 ∧ t.dmas.length = 4 ∧ (∀ x ∈ t.dmas, x < 2 ^ 32) ∧
  t.task_hmac.length = 32 ∧ (∀ b ∈ t.task_hmac, b < 2 ^ 8) ∧
  t.metadata_hmac.length = 32 ∧ (∀ b ∈ t.metadata_hmac, b < 2 ^ 8)

instance (t : TaskMeta) : Decidable t.wf := by
  unfold TaskMeta.wf; infer_instance

/-- The declared fixed size of the record:
8+4+4+1+1+4+4+1 + 7*4 + 3*2 + 3*(1+16) + 2*32 = 176 bytes. -/
def TASK_META_SIZE : Nat := 176

/-- Serialization of the record: every field little-endian, in declaration
order, with no padding. -/
def TaskMeta.encode (t : TaskMeta) : List Nat :=
  leBytes 8 t.magic ++ leBytes 4 t.version ++ leBytes 4 t.handle ++
  leBytes 1 t.priority ++ leBytes 1 t.quantum ++ leBytes 4 t.capabilities ++
  leBytes 4 t.flags ++ leBytes 1 t.domain ++
  leBytes 4 t.s_text ++ leBytes 4 t.text_size ++ leBytes 4 t.rodata_size ++
  leBytes 4 t.data_size ++ leBytes 4 t.bss_size ++ leBytes 4 t.heap_size ++
  leBytes 4 t.s_svcexchange ++
  leBytes 2 t.stack_size ++ leBytes 2 t.entrypoint_offset ++
  leBytes 2 t.finalize_offset ++
  leBytes 1 t.num_shm ++ t.shms.flatMap (leBytes 4) ++
  leBytes 1 t.num_dev ++ t.devs.flatMap (leBytes 4) ++
  leBytes 1 t.num_dma ++ t.dmas.flatMap (leBytes 4) ++
  t.task_hmac ++ t.metadata_hmac

/-- Read one `w`-byte little-endian field off the front of a buffer. -/
def readLE (w : Nat) (bs : List Nat) : Nat × List Nat :=
  (fromLE (bs.take w), bs.drop w)

/-- Read four consecutive 4-byte little-endian fields (one fixed array). -/
def readLE4 (bs : List Nat) : List Nat × List Nat :=
  let a := readLE 4 bs
  let b := readLE 4 a.2
  let c := readLE 4 b.2
  let d := readLE 4 c.2
  ([a.1, b.1, c.1, d.1], d.2)

/-- Deserialization of a 176-byte record into the `TaskMeta` fields, reading
each field at its layout offset in declaration order. -/
def taskMetaOfBytes (bs : List Nat) : TaskMeta :=
  let p1 := readLE 8 bs
  let p2 := readLE 4 p1.2
  let p3 := readLE 4 p2.2
  let p4 := readLE 1 p3.2
  let p5 := readLE 1 p4.2
  let p6 := readLE 4 p5.2
  let p7 := readLE 4 p6.2
  let p8 := readLE 1 p7.2
  let p9 := readLE 4 p8.2
  let p10 := readLE 4 p9.2
  let p11 := readLE 4 p10.2
  let p12 := readLE 4 p11.2
  let p13 := readLE 4 p12.2
  let p14 := readLE 4 p13.2
  let p15 := readLE 4 p14.2
  let p16 := readLE 2 p15.2
  let p17 := readLE 2 p16.2
  let p18 := readLE 2 p17.2
  let p19 := readLE 1 p18.2
  let p20 := readLE4 p19.2
  let p21 := readLE 1 p20.2
  let p22 := readLE4 p21.2
  let p23 := readLE 1 p22.2
  let p24 := readLE4 p23.2
  { magic := p1.1, version := p2.1, handle := p3.1, priority := p4.1,
    quantum := p5.1, capabilities := p6.1, flags := p7.1, domain := p8.1,
    s_text := p9.1, text_size := p10.1, rodata_size := p11.1,
    data_size := p12.1, bss_size := p13.1, heap_size := p14.1,
    s_svcexchange := p15.1, stack_size := p16.1, entrypoint_offset := p17.1,
    finalize_offset := p18.1, num_shm := p19.1, shms := p20.1,
    num_dev := p21.1, devs := p22.1, num_dma := p23.1, dmas := p24.1,
    task_hmac := p24.2.take 32, metadata_hmac := (p24.2.drop 32).take 32 }

/-- Modelled from the spec: `decode(bytes) -> descriptor`, the inverse of
encode, failing with a format error "if the magic or version does not match
the expected constants, or if the byte length does not match the declared
fixed size".  The source ships only the cstruct layout declaration
(`TaskMeta`); the decode entry point with its expected format-identifier and
version constants is not under `src/`, so the checks are taken from the
specification's words, parameterized by the two expected constants.  The
magic is the first 8-byte little-endian field of the buffer and the version
the following 4-byte field, per the declared layout. -/
def taskMetaDecode (expectedMagic expectedVersion : Nat) (bs : List Nat) :
    Except String TaskMeta :=
  if bs.length ≠ TASK_META_SIZE then .error "size mismatch"
  else if (readLE 8 bs).1 ≠ expectedMagic then .error "bad magic"
  else if (readLE 4 (readLE 8 bs).2).1 ≠ expectedVersion then
    .error "bad version"
  else .ok (taskMetaOfBytes bs)

/-! ## Build-graph generator (`buildsys/ninja_backend.py`).

`ninja_syntax.Writer.build(outputs, rule, inputs, implicit, order_only,
implicit_outputs, variables)` emits one build edge; an edge is modelled as a
record of those argument lists (a single-string argument becomes a one-element
list, an omitted argument an empty list).  `implicit` deps are emitted after
`|`, `order_only` deps after `||` — they are distinct ninja concepts. -/

/-- One emitted ninja build edge. -/
structure NinjaEdge where
  outputs : List String
  rule : String
  inputs : List String
  implicit : List String
  orderOnly : List String
  implicitOutputs : List String
  vars : List (String × String)
deriving DecidableEq

/-- The package model as consumed by the backend: name, per-package build and
source directories, the shared staging directory, and the raw configuration
node's optional `deps` and `build_opts` entries (`Package._config`). -/
structure Package where
  name : String
  build_dir : String
  src_dir : String
  staging_dir : String
  config_deps : Option (List String)
  build_opts : List String
deriving DecidableEq

/-- `Package.deps`: `self._config["deps"] if "deps" in self._config else list()`. -/
def Package.deps (p : Package) : List String := p.config_deps.getD []

/-- The `meson_setup` edge of `add_meson_package`: builds
`{build_dir}/build.ninja`, order-only on `{dep}_install.stamp` for each
declared dependency. -/
def mesonSetupEdge (p : Package) : NinjaEdge :=
  { outputs := [p.build_dir ++ "/build.ninja"]
    rule := "meson_setup"
    inputs := []
    implicit := []
    orderOnly := p.deps.map fun dep => dep ++ "_install.stamp"
    implicitOutputs := []
    vars := [("builddir", p.build_dir), ("sourcedir", p.src_dir),
                  ("name", p.name)] }

/-- The phony `{name}_setup` alias edge of `add_meson_package`. -/
def setupPhonyEdge (p : Package) : NinjaEdge :=
  { outputs := [p.name ++ "_setup"]
    rule := "phony"
    inputs := [p.build_dir ++ "/build.ninja"]
    implicit := []
    orderOnly := []
    implicitOutputs := []
    vars := [] }

/-- The `{name}.dyndep` edge of `add_meson_package`: order-only on the setup
alias, with the introspection capture as implicit extra output. -/
def dyndepEdge (p : Package) : NinjaEdge :=
  { outputs := [p.name ++ ".dyndep"]
    rule := "meson_package_dyndep"
    inputs := []
    implicit := []
    orderOnly := [p.name ++ "_setup"]
    implicitOutputs := [p.name ++ "_introspect.json"]
    vars := [("name", p.name), ("builddir", p.build_dir),
                  ("stagingdir", p.staging_dir),
                  ("json", p.name ++ "_introspect.json")] }

/-- The `meson_compile` edge of `add_meson_package`: builds
`{name}_compile.stamp`, order-only on the dyndep declaration. -/
def mesonCompileEdge (p : Package) : NinjaEdge :=
  { outputs := [p.name ++ "_compile.stamp"]
    rule := "meson_compile"
    inputs := []
    implicit := []
    orderOnly := [p.name ++ ".dyndep"]
    implicitOutputs := []
    vars := [("builddir", p.build_dir), ("name", p.name),
                  ("dyndep", p.name ++ ".dyndep")] }

/-- The phony `{name}_compile` alias edge of `add_meson_package`. -/
def compilePhonyEdge (p : Package) : NinjaEdge :=
  { outputs := [p.name ++ "_compile"]
    rule := "phony"
    inputs := [p.name ++ "_compile.stamp"]
    implicit := []
    orderOnly := []
    implicitOutputs := []
    vars := [] }

/-- The `meson_install` edge of `add_meson_package`: builds
`{name}_install.stamp`, order-only on the dyndep declaration. -/
def mesonInstallEdge (p : Package) : NinjaEdge :=
  { outputs := [p.name ++ "_install.stamp"]
    rule := "meson_install"
    inputs := []
    implicit := []
    orderOnly := [p.name ++ ".dyndep"]
    implicitOutputs := []
    vars := [("builddir", p.build_dir), ("name", p.name),
                  ("stagingdir", p.staging_dir),
                  ("dyndep", p.name ++ ".dyndep")] }

/-- The phony `{name}_install` alias edge of `add_meson_package`: this node is
the install-phony alias of the package. -/
def installPhonyEdge (p : Package) : NinjaEdge :=
  { outputs := [p.name ++ "_install"]
    rule := "phony"
    inputs := [p.name ++ "_install.stamp"]
    implicit := []
    orderOnly := []
    implicitOutputs := []
    vars := [] }

/-- `NinjaGenFile.add_meson_package`: the seven edges emitted for one
package, in emission order. -/
def addMesonPackage (p : Package) : List NinjaEdge :=
  [mesonSetupEdge p, setupPhonyEdge p, dyndepEdge p, mesonCompileEdge p,
   compilePhonyEdge p, mesonInstallEdge p, installPhonyEdge p]

/-- The install-phony alias name of a package, as declared by the
`installPhonyEdge` of `add_meson_package`. -/
def installPhonyAlias (name : String) : String := name ++ "_install"

/-- `NinjaGenFile.add_gen_ldscript_target`: one linker-script edge.  The
shield install stamp, and (except for the `"dummy"` pseudo-image) the image's
own install stamp, are passed as `implicit` dependencies; no `order_only`
argument is given. -/
def addGenLdscriptTarget (name output layout : String)
    (package_name : Option String) : NinjaEdge :=
  { outputs := [output]
    rule := "internal"
    inputs := [layout]
    implicit := "libshield_install.stamp" ::
      (if name ≠ "dummy" then [package_name.getD name ++ "_install.stamp"]
       else [])
    orderOnly := []
    implicitOutputs := []
    vars := [("cmd", "gen_ldscript")] }

/-! ## Claim theorems: dynamic-dependency synthesizer -/

/-- A concrete introspection snapshot used to witness the dyndep theorems: two
build-system files, one target with one source and one generated source, one
installed file with an absolute destination. -/
def introspectExample : Introspect :=
  { buildsystem_files := ["srcdir/meson.build", "srcdir/meson_options.txt"]
    targets := [{ target_sources := some [{ sources := some ["srcdir/main.c"]
                                            generated_sources := some ["build/version.h"] }] }]
    installed := [("build/prog", "/usr/bin/prog")] }

/-- C1: for every introspection snapshot (with the installed destinations
absolute, as meson produces them), the synthesized declaration satisfies: the
compile step's implicit outputs are exactly the keys of the installed map; its
implicit inputs are the union of build-system files and all source and
generated-source files minus those implicit outputs, hence disjoint from
them; the install step's implicit inputs equal the compile step's implicit
outputs; and the install step's implicit outputs are the staging directory
joined with each installed destination after stripping its leading
separator. -/
theorem dyndep_decl_sets_spec (stagingdir : String) (i : Introspect)
    (hsep : ∀ kv ∈ i.installed, leadingSep kv.2) :
    (genDyndepDecl stagingdir i).compile_implicit_outputs
        = (i.installed.map Prod.fst).toFinset ∧
    (genDyndepDecl stagingdir i).compile_implicit_inputs
        = (i.buildsystem_files.toFinset ∪ (packageSources i).toFinset)
            \ (genDyndepDecl stagingdir i).compile_implicit_outputs ∧
    Disjoint (genDyndepDecl stagingdir i).compile_implicit_inputs
        (genDyndepDecl stagingdir i).compile_implicit_outputs ∧
    (genDyndepDecl stagingdir i).install_implicit_inputs
        = (genDyndepDecl stagingdir i).compile_implicit_outputs ∧
    (genDyndepDecl stagingdir i).install_implicit_outputs
        = (i.installed.map fun kv =>
            pathJoin stagingdir (stripLeadingSep kv.2)).toFinset := by
  refine ⟨rfl, ?_, ?_, rfl, ?_⟩
  · simp [genDyndepDecl, List.toFinset_append]
  · simp only [genDyndepDecl]
    exact Finset.sdiff_disjoint
  · simp only [genDyndepDecl]
    congr 1
    apply List.map_congr_left
    intro kv hkv
    have h := hsep kv hkv
    simp [stripLeadingSep, h]

/-- Witness for C1 at the concrete snapshot `introspectExample`. -/
theorem dyndep_decl_sets_spec_witness :
    (∀ kv ∈ introspectExample.installed, leadingSep kv.2) ∧
    ((genDyndepDecl "/stage" introspectExample).compile_implicit_outputs
        = (introspectExample.installed.map Prod.fst).toFinset ∧
    (genDyndepDecl "/stage" introspectExample).compile_implicit_inputs
        = (introspectExample.buildsystem_files.toFinset
            ∪ (packageSources introspectExample).toFinset)
            \ (genDyndepDecl "/stage" introspectExample).compile_implicit_outputs ∧
    Disjoint (genDyndepDecl "/stage" introspectExample).compile_implicit_inputs
        (genDyndepDecl "/stage" introspectExample).compile_implicit_outputs ∧
    (genDyndepDecl "/stage" introspectExample).install_implicit_inputs
        = (genDyndepDecl "/stage" introspectExample).compile_implicit_outputs ∧
    (genDyndepDecl "/stage" introspectExample).install_implicit_outputs
        = (introspectExample.installed.map fun kv =>
            pathJoin "/stage" (stripLeadingSep kv.2)).toFinset) :=
  ⟨by decide, dyndep_decl_sets_spec "/stage" introspectExample (by decide)⟩

/-- C10: the synthesizer strips the first character of every installed
destination unconditionally before joining it onto the staging directory
(the map is literally `stagingdir / f[1:]`); a destination beginning with a
separator therefore becomes `staging/rest-of-path`, while for any first
character whatsoever — in particular a non-separator one — the first
character is simply dropped, so the staged output path is independent of
it. -/
theorem install_outputs_strip_first_char (staging : String) (i : Introspect) :
    (genDyndepDecl staging i).install_implicit_outputs
        = (i.installed.map fun kv => pathJoin staging (strTail kv.2)).toFinset ∧
    (∀ rest : List Char, rest ≠ [] → ¬ leadingSep (String.mk rest) →
        pathJoin staging (strTail (String.mk ('/' :: rest)))
          = staging ++ "/" ++ String.mk rest) ∧
    (∀ (c : Char) (rest : List Char),
        pathJoin staging (strTail (String.mk (c :: rest)))
          = pathJoin staging (String.mk rest)) := by
  refine ⟨rfl, ?_, ?_⟩
  · intro rest hne hsep
    have ht : strTail (String.mk ('/' :: rest)) = String.mk rest := rfl
    rw [ht]
    simp only [pathJoin]
    rw [if_neg hne, if_neg hsep]
  · intro c rest
    have ht : strTail (String.mk (c :: rest)) = String.mk rest := rfl
    rw [ht]

/-- Witness for C10: destination `/usr/bin/prog` is staged to
`/stage/usr/bin/prog`, and destinations `abc` and `xbc` both lose their first
character, staging to the same `/stage/bc`. -/
theorem install_outputs_strip_first_char_witness :
    ("usr/bin/prog".data ≠ [] ∧ ¬ leadingSep (String.mk "usr/bin/prog".data)) ∧
    pathJoin "/stage" (strTail (String.mk ('/' :: "usr/bin/prog".data)))
      = "/stage" ++ "/" ++ String.mk "usr/bin/prog".data ∧
    pathJoin "/stage" (strTail (String.mk ('a' :: "bc".data)))
      = pathJoin "/stage" (String.mk "bc".data) :=
  ⟨⟨by decide, by decide⟩,
   (install_outputs_strip_first_char "/stage" introspectExample).2.1
     "usr/bin/prog".data (by decide) (by decide),
   (install_outputs_strip_first_char "/stage" introspectExample).2.2
     'a' "bc".data⟩

/-- C8: if the introspection subprocess exits non-zero, or its payload does
not parse, the dyndep synthesis fails fatally with the corresponding error
and produces no declaration (`Except.ok` is unreachable, i.e. the output file
is never opened for writing); only after a successful, parsed introspection
is the declaration produced. -/
theorem run_dyndep_fail_no_write (exitStatus : Nat) (stdout : String)
    (parse : String → Option Introspect) (staging : String) :
    (exitStatus ≠ 0 →
        runMesonPackageDyndep exitStatus stdout parse staging
          = .error .subprocess) ∧
    (exitStatus = 0 → parse stdout = none →
        runMesonPackageDyndep exitStatus stdout parse staging = .error .parse) ∧
    ((exitStatus ≠ 0 ∨ parse stdout = none) →
        ∀ d, runMesonPackageDyndep exitStatus stdout parse staging ≠ .ok d) ∧
    (∀ i, exitStatus = 0 → parse stdout = some i →
        runMesonPackageDyndep exitStatus stdout parse staging
          = .ok (genDyndepDecl staging i)) := by
  refine ⟨?_, ?_, ?_, ?_⟩
  · intro h
    simp [runMesonPackageDyndep, h]
  · intro h hp
    simp [runMesonPackageDyndep, h, hp]
  · rintro (h | h) d
    · simp [runMesonPackageDyndep, h]
    · by_cases he : exitStatus = 0
      · simp [runMesonPackageDyndep, he, h]
      · simp [runMesonPackageDyndep, he]
  · intro i he hp
    simp [runMesonPackageDyndep, he, hp]

/-- Witness for C8: a failing introspection invocation (exit status 1) and an
unparsable payload each yield the fatal error with nothing written. -/
theorem run_dyndep_fail_no_write_witness :
    ((1 : Nat) ≠ 0 ∧
      runMesonPackageDyndep 1 "garbage" (fun _ => none) "/stage"
        = .error .subprocess) ∧
    ((0 : Nat) = 0 ∧ (fun (_ : String) => (none : Option Introspect)) "garbage" = none ∧
      runMesonPackageDyndep 0 "garbage" (fun _ => none) "/stage"
        = .error .parse) :=
  ⟨⟨by decide,
    (run_dyndep_fail_no_write 1 "garbage" (fun _ => none) "/stage").1 (by decide)⟩,
   ⟨rfl, rfl,
    (run_dyndep_fail_no_write 0 "garbage" (fun _ => none) "/stage").2.1 rfl rfl⟩⟩

/-- C9 counterexample: two enumerations of the same two-element file set (the
lists are permutations of one another, i.e. the same Python set) serialize to
different bytes, and neither sorting nor any other canonicalization is applied
by the serializer; the claim that the same snapshot always yields
byte-identical, lexicographically ordered output is therefore false. -/
theorem dyndep_serialization_not_canonical :
    (["b", "a"] : List String).Perm ["a", "b"] ∧
    addBuildTargetDyndep "pkg_compile.stamp" ["b", "a"] []
      ≠ addBuildTargetDyndep "pkg_compile.stamp" ["a", "b"] [] :=
  ⟨List.Perm.swap "a" "b" [], by decide⟩

/-- C9 amended: the serializer emits the files of each set in whatever order
the set enumerates them, with no sorting: the output bytes are determined by
— and, for distinct same-length file names, strictly sensitive to — the
enumeration order, so equal sets yield equal bytes only when their iteration
orders coincide. -/
theorem addBuildTargetDyndep_order_sensitive (target : String)
    (outs : List String) (f g : String) (hlen : f.length = g.length)
    (hne : f ≠ g) :
    addBuildTargetDyndep target [f, g] outs
      ≠ addBuildTargetDyndep target [g, f] outs := by
  intro h
  apply hne
  unfold addBuildTargetDyndep at h
  have hd := congrArg String.data h
  simp only [List.map_cons, List.map_nil, String.join, List.foldl_cons,
    List.foldl_nil, String.data_append, List.append_assoc, List.isEmpty_cons,
    List.nil_append] at hd
  repeat replace hd := List.append_cancel_left hd
  have hdl : f.data.length = g.data.length := hlen
  exact String.ext (List.append_inj hd hdl).1

/-- Witness for the amended C9 theorem: the same-length distinct names `a` and
`b` in the two orders give different serialized blocks. -/
theorem addBuildTargetDyndep_order_sensitive_witness :
    ("a" : String).length = ("b" : String).length ∧ ("a" : String) ≠ "b" ∧
    addBuildTargetDyndep "pkg_install.stamp" ["a", "b"] []
      ≠ addBuildTargetDyndep "pkg_install.stamp" ["b", "a"] [] :=
  ⟨by decide, by decide,
   addBuildTargetDyndep_order_sensitive "pkg_install.stamp" [] "a" "b"
     (by decide) (by decide)⟩

/-! ## Claim theorems: bit-packed sub-fields -/

theorem testBit_ffffffff (i : Nat) :
    (0xffffffff : Nat).testBit i = decide (i < 32) := by
  have h : (0xffffffff : Nat) = 2 ^ 32 - 1 := by norm_num
  rw [h, Nat.testBit_two_pow_sub_one]

theorem testBit_one_decide (i : Nat) : (1 : Nat).testBit i = decide (i = 0) := by
  conv_lhs => rw [show (1 : Nat) = 2 ^ 1 - 1 by norm_num]
  rw [Nat.testBit_two_pow_sub_one]
  by_cases h : i = 0
  · subst h
    simp
  · have h1 : ¬ i < 1 := by omega
    simp [h, h1]

theorem testBit_fffffffe (i : Nat) :
    (0xfffffffe : Nat).testBit i = (decide (1 ≤ i) && decide (i < 32)) := by
  have h : (0xfffffffe : Nat) = (2 ^ 31 - 1) <<< 1 := by decide
  rw [h, Nat.testBit_shiftLeft, Nat.testBit_two_pow_sub_one]
  by_cases h1 : 1 ≤ i
  · by_cases h32 : i < 32
    · have h31 : i - 1 < 31 := by omega
      simp [h1, h32, h31]
    · have h31 : ¬ i - 1 < 31 := by omega
      simp [h1, h32, h31]
  · simp [h1]

theorem testBit_fffffff1 (i : Nat) :
    (0xfffffff1 : Nat).testBit i
      = (decide (i = 0) || (decide (4 ≤ i) && decide (i < 32))) := by
  have h : (0xfffffff1 : Nat) = ((2 ^ 28 - 1) <<< 4) ||| (2 ^ 1 - 1) := by decide
  rw [h, Nat.testBit_or, Nat.testBit_shiftLeft, Nat.testBit_two_pow_sub_one,
    Nat.testBit_two_pow_sub_one]
  by_cases h4 : 4 ≤ i
  · have h0 : ¬ i < 1 := by omega
    have h0' : ¬ i = 0 := by omega
    by_cases h32 : i < 32
    · have h28 : i - 4 < 28 := by omega
      simp [h4, h0, h0', h32, h28]
    · have h28 : ¬ i - 4 < 28 := by omega
      simp [h4, h0, h0', h32, h28]
  · by_cases h0 : i = 0
    · have h1 : i < 1 := by omega
      simp [h4, h0, h1]
    · have h1 : ¬ i < 1 := by omega
      simp [h4, h0, h1]

theorem testBit_taskHandleIdMask (i : Nat) :
    taskHandleIdMask.testBit i = (decide (13 ≤ i) && decide (i < 29)) := by
  have h : taskHandleIdMask = (2 ^ 16 - 1) <<< 13 := by decide
  rw [h, Nat.testBit_shiftLeft, Nat.testBit_two_pow_sub_one]
  by_cases h13 : 13 ≤ i
  · by_cases h29 : i < 29
    · have h16 : i - 13 < 16 := by omega
      simp [h13, h29, h16]
    · have h16 : ¬ i - 13 < 16 := by omega
      simp [h13, h29, h16]
  · simp [h13]

/-- C2: setting the task-handle id on any initial 32-bit field value stores a
16-bit id at bit offset 13 by read-modify-write: the id reads back exactly,
and every bit outside the 16-bit mask at offset 13 (bits 0-12 and 29 up) is
unchanged. -/
theorem task_handle_set_id_roundtrip_frame (id raw : Nat) (hid : id < 2 ^ 16)
    (hraw : raw < 2 ^ 32) :
    taskHandleId (taskHandleSetId raw id) = id ∧
    (∀ i, i < 13 ∨ 29 ≤ i →
      (taskHandleSetId raw id).testBit i = raw.testBit i) := by
  constructor
  · apply Nat.eq_of_testBit_eq
    intro i
    simp only [taskHandleId, taskHandleSetId, taskHandleIdShift,
      Nat.testBit_shiftRight, Nat.testBit_and, Nat.testBit_or,
      Nat.testBit_xor, Nat.testBit_shiftLeft, testBit_ffffffff,
      testBit_taskHandleIdMask]
    by_cases h16 : i < 16
    · have h29 : 13 + i < 29 := by omega
      have h13 : 13 ≤ 13 + i := by omega
      have h32 : 13 + i < 32 := by omega
      have hsub : 13 + i - 13 = i := by omega
      simp [h29, h13, h32, hsub]
    · have hbit : id.testBit i = false :=
        Nat.testBit_eq_false_of_lt
          (lt_of_lt_of_le hid (Nat.pow_le_pow_right (by omega) (by omega)))
      have h29 : ¬ 13 + i < 29 := by omega
      simp [h29, hbit]
  · intro i hi
    simp only [taskHandleSetId, taskHandleIdShift, Nat.testBit_or,
      Nat.testBit_and, Nat.testBit_xor, Nat.testBit_shiftLeft,
      testBit_ffffffff, testBit_taskHandleIdMask]
    have hmask : (decide (13 ≤ i) && decide (i < 29)) = false := by
      rcases hi with h | h
      · have h13 : ¬ 13 ≤ i := by omega
        simp [h13]
      · have h29 : ¬ i < 29 := by omega
        simp [h29]
    rw [hmask]
    by_cases h32 : i < 32
    · simp [h32]
    · have hbit : raw.testBit i = false :=
        Nat.testBit_eq_false_of_lt
          (lt_of_lt_of_le hraw (Nat.pow_le_pow_right (by omega) (by omega)))
      simp [h32, hbit]

/-- Witness for C2 at id `0x1234` and initial field `0xdeadbeef`. -/
theorem task_handle_set_id_roundtrip_frame_witness :
    (0x1234 : Nat) < 2 ^ 16 ∧ (0xdeadbeef : Nat) < 2 ^ 32 ∧
    taskHandleId (taskHandleSetId 0xdeadbeef 0x1234) = 0x1234 ∧
    (taskHandleSetId 0xdeadbeef 0x1234).testBit 0 = (0xdeadbeef : Nat).testBit 0 :=
  ⟨by decide, by decide,
   (task_handle_set_id_roundtrip_frame 0x1234 0xdeadbeef (by decide) (by decide)).1,
   (task_handle_set_id_roundtrip_frame 0x1234 0xdeadbeef (by decide) (by decide)).2
     0 (Or.inl (by decide))⟩

/-- C3: on any initial 32-bit job-flags field, setting the exit-mode changes
only bits 1-3 (bit 0 and bits 4-31 keep their values), setting the autostart
flag changes only bit 0, and the concrete case holds: field `0x00000003`
(autostart set, exit-mode restart) becomes `0x00000005` when the exit-mode is
set to panic, with the autostart bit still set. -/
theorem job_flags_isolation (raw mode : Nat) (hraw : raw < 2 ^ 32) :
    (∀ i, i = 0 ∨ 4 ≤ i →
      (jobFlagsSetExitMode raw mode).testBit i = raw.testBit i) ∧
    (∀ (auto : Bool) i, 1 ≤ i →
      (jobFlagsSetAutostart raw auto).testBit i = raw.testBit i) ∧
    jobFlagsSetExitModeByName 0x3 "panic" = some 0x5 ∧
    jobFlagsAutostartMode 0x5 = true := by
  refine ⟨?_, ?_, by decide, by decide⟩
  · intro i hi
    have h7 : (0x7 : Nat) = 2 ^ 3 - 1 := by norm_num
    simp only [jobFlagsSetExitMode, h7, Nat.testBit_or, Nat.testBit_and,
      Nat.testBit_shiftLeft, Nat.testBit_two_pow_sub_one, testBit_fffffff1]
    rcases hi with h0 | h4
    · subst h0
      simp
    · have e1 : ¬ i - 1 < 3 := by omega
      have e0 : ¬ i = 0 := by omega
      by_cases h32 : i < 32
      · simp [e1, e0, h4, h32]
      · have hbit : raw.testBit i = false :=
          Nat.testBit_eq_false_of_lt
            (lt_of_lt_of_le hraw (Nat.pow_le_pow_right (by omega) (by omega)))
        simp [e1, e0, h32, hbit]
  · intro auto i hi
    have e0 : ¬ i = 0 := by omega
    by_cases h32 : i < 32
    · cases auto <;>
        simp [jobFlagsSetAutostart, JOB_FLAG_START_AUTO, JOB_FLAG_START_NOAUTO,
          Nat.testBit_or, Nat.testBit_and, testBit_one_decide,
          testBit_fffffffe, e0, hi, h32]
    · have hbit : raw.testBit i = false :=
        Nat.testBit_eq_false_of_lt
          (lt_of_lt_of_le hraw (Nat.pow_le_pow_right (by omega) (by omega)))
      cases auto <;>
        simp [jobFlagsSetAutostart, JOB_FLAG_START_AUTO, JOB_FLAG_START_NOAUTO,
          Nat.testBit_or, Nat.testBit_and, testBit_one_decide,
          testBit_fffffffe, e0, h32, hbit]

/-- Witness for C3 at the concrete field `0x3`. -/
theorem job_flags_isolation_witness :
    (0x3 : Nat) < 2 ^ 32 ∧
    (jobFlagsSetExitMode 0x3 JOB_FLAG_EXIT_PANIC).testBit 0
      = (0x3 : Nat).testBit 0 ∧
    (jobFlagsSetAutostart 0x3 false).testBit 1 = (0x3 : Nat).testBit 1 ∧
    jobFlagsSetExitModeByName 0x3 "panic" = some 0x5 :=
  ⟨by decide,
   (job_flags_isolation 0x3 JOB_FLAG_EXIT_PANIC (by decide)).1 0 (Or.inl rfl),
   (job_flags_isolation 0x3 0 (by decide)).2.1 false 1 (by decide),
   (job_flags_isolation 0x3 0 (by decide)).2.2.1⟩

/-- C5 counterexample: the field `0xa` has bits 1-3 equal to `5`, outside the
five defined exit modes, yet unpacking it does not fail: the getters return
`(false, 5)`.  The claimed invalid-enum error does not exist in the code —
the `exit_mode` getter is a plain bit extraction. -/
theorem unpack_job_flags_no_error_cex :
    unpackJobFlags 0xa = (false, 5) ∧
    (5 : Nat) ∉ [JOB_FLAG_EXIT_NORESTART, JOB_FLAG_EXIT_RESTART,
      JOB_FLAG_EXIT_PANIC, JOB_FLAG_EXIT_PERIODICRESTART,
      JOB_FLAG_EXIT_RESET] := by
  decide

theorem exitMode_after_set (A mode : Nat) (hmode : mode < 8) :
    jobFlagsExitMode (jobFlagsSetExitMode A mode) = mode := by
  apply Nat.eq_of_testBit_eq
  intro i
  have h7 : (0x7 : Nat) = 2 ^ 3 - 1 := by norm_num
  simp only [jobFlagsExitMode, jobFlagsSetExitMode, h7, Nat.testBit_and,
    Nat.testBit_or, Nat.testBit_shiftRight, Nat.testBit_shiftLeft,
    Nat.testBit_two_pow_sub_one, testBit_fffffff1]
  by_cases h3 : i < 3
  · have e0 : ¬ (1 + i = 0) := by omega
    have e4 : ¬ 4 ≤ 1 + i := by omega
    have e1 : 1 ≤ 1 + i := by omega
    have es : 1 + i - 1 = i := by omega
    simp [h3, e0, e4, e1, es]
  · have hm : mode < 2 ^ 3 := by omega
    have hbit : mode.testBit i = false :=
      Nat.testBit_eq_false_of_lt
        (lt_of_lt_of_le hm (Nat.pow_le_pow_right (by omega) (by omega)))
    simp [h3, hbit]

theorem bit0_after_setExitMode (A mode : Nat) :
    jobFlagsSetExitMode A mode &&& 0x1 = A &&& 0x1 := by
  apply Nat.eq_of_testBit_eq
  intro i
  simp only [jobFlagsSetExitMode, Nat.testBit_and, Nat.testBit_or,
    Nat.testBit_shiftLeft, testBit_one_decide, testBit_fffffff1]
  by_cases h0 : i = 0
  · subst h0
    simp
  · simp [h0]

theorem bit0_after_setAutostart (raw : Nat) (auto : Bool) :
    jobFlagsSetAutostart raw auto &&& 0x1 = if auto then 1 else 0 := by
  apply Nat.eq_of_testBit_eq
  intro i
  by_cases h0 : i = 0
  · subst h0
    cases auto <;>
      simp [jobFlagsSetAutostart, JOB_FLAG_START_AUTO, JOB_FLAG_START_NOAUTO,
        Nat.testBit_or, Nat.testBit_and, testBit_one_decide, testBit_fffffffe]
  · have h2i : (2 : Nat) ≤ 2 ^ i := by
      have h21 : (2 : Nat) = 2 ^ 1 := by norm_num
      rw [h21]
      exact Nat.pow_le_pow_right (by omega) (by omega)
    cases auto <;>
      · simp [jobFlagsSetAutostart, JOB_FLAG_START_AUTO, JOB_FLAG_START_NOAUTO,
          Nat.testBit_or, Nat.testBit_and, testBit_one_decide,
          testBit_fffffffe, h0]
        exact Nat.testBit_eq_false_of_lt
          (lt_of_lt_of_le (Nat.mod_lt _ (by norm_num)) h2i)

/-- C5 amended: unpacking a job-flags field never fails — both getters are
total bit extractions, returning the autostart bit and the raw bits 1-3 even
when those decode to 5, 6 or 7; in particular, packing any autostart flag and
any 3-bit mode value (the five defined modes included) and unpacking returns
exactly that pair. -/
theorem unpack_job_flags_amended (raw mode : Nat) (auto : Bool)
    (hmode : mode < 8) :
    unpackJobFlags (jobFlagsSetExitMode (jobFlagsSetAutostart raw auto) mode)
      = (auto, mode) := by
  have h2 : jobFlagsExitMode
      (jobFlagsSetExitMode (jobFlagsSetAutostart raw auto) mode) = mode :=
    exitMode_after_set _ mode hmode
  have hb : jobFlagsAutostartMode
      (jobFlagsSetExitMode (jobFlagsSetAutostart raw auto) mode) = auto := by
    unfold jobFlagsAutostartMode
    rw [bit0_after_setExitMode, bit0_after_setAutostart]
    cases auto <;> rfl
  simp [unpackJobFlags, hb, h2]

/-- Witness for the amended C5 theorem at the undefined mode value 7: packing
and unpacking succeed and return `(true, 7)` — no error is raised. -/
theorem unpack_job_flags_amended_witness :
    (7 : Nat) < 8 ∧
    unpackJobFlags (jobFlagsSetExitMode (jobFlagsSetAutostart 0 true) 7)
      = (true, 7) :=
  ⟨by decide, unpack_job_flags_amended 0 7 true (by decide)⟩

/-! ## Claim theorems: build-graph generator -/

/-- A package declaring one dependency `foo`. -/
def packageExampleDep : Package :=
  { name := "bar", build_dir := "build/bar", src_dir := "src/bar",
    staging_dir := "/stage", config_deps := some ["foo"], build_opts := [] }

/-- A package whose configuration declares no dependencies. -/
def packageExampleNoDeps : Package :=
  { name := "solo", build_dir := "build/solo", src_dir := "src/solo",
    staging_dir := "/stage", config_deps := none, build_opts := [] }

/-- C6 counterexample: for a package depending on `foo`, the configure
(setup) edge's order-only set is `["foo_install.stamp"]` — the install
stamp file — and does not contain the install-phony alias `foo_install`,
contradicting the claim that the order-only set equals the set of
install-phony aliases of the declared dependencies. -/
theorem setup_order_only_not_phony_alias_cex :
    (mesonSetupEdge packageExampleDep).orderOnly = ["foo_install.stamp"] ∧
    installPhonyAlias "foo" = "foo_install" ∧
    installPhonyAlias "foo" ∉ (mesonSetupEdge packageExampleDep).orderOnly := by
  refine ⟨rfl, rfl, ?_⟩
  decide

/-- C6 amended: the configure (setup) edge's order-only dependency set is
exactly `{dep}_install.stamp` — the install stamp target, of which
`{dep}_install` is the phony alias — for each declared dependency of the
package and nothing else; for a package whose configuration declares no
dependencies it is empty. -/
theorem setup_edge_order_only (p : Package) :
    (mesonSetupEdge p).orderOnly
      = p.deps.map (fun dep => dep ++ "_install.stamp") ∧
    (p.config_deps = none → (mesonSetupEdge p).orderOnly = []) := by
  refine ⟨rfl, ?_⟩
  intro h
  simp [mesonSetupEdge, Package.deps, h]

/-- Witness for the amended C6 theorem at a dependency-free package. -/
theorem setup_edge_order_only_witness :
    (mesonSetupEdge packageExampleNoDeps).orderOnly
      = packageExampleNoDeps.deps.map (fun dep => dep ++ "_install.stamp") ∧
    packageExampleNoDeps.config_deps = none ∧
    (mesonSetupEdge packageExampleNoDeps).orderOnly = [] :=
  ⟨(setup_edge_order_only packageExampleNoDeps).1, rfl,
   (setup_edge_order_only packageExampleNoDeps).2 rfl⟩

/-- C7 counterexample: the linker-script edge for image `app` has an empty
order-only set — the shield install stamp and the image's own install stamp
are implicit inputs instead, contradicting the claim that the edge is
order-only on them. -/
theorem ldscript_not_order_only_cex :
    (addGenLdscriptTarget "app" "out.ld" "layout.json" none).orderOnly = [] ∧
    "libshield_install.stamp"
      ∉ (addGenLdscriptTarget "app" "out.ld" "layout.json" none).orderOnly ∧
    (addGenLdscriptTarget "app" "out.ld" "layout.json" none).implicit
      = ["libshield_install.stamp", "app_install.stamp"] := by
  decide

/-- C7 amended: every emitted linker-script edge depends on the fixed shield
package's install stamp plus — except for the `dummy` pseudo-image, where
this second dependency is omitted — the image's own install stamp (with the
package-name override honored), but as implicit inputs: its order-only set
is empty. -/
theorem ldscript_edge_implicit_deps (name output layout : String)
    (pn : Option String) :
    (addGenLdscriptTarget name output layout pn).orderOnly = [] ∧
    (name ≠ "dummy" →
      (addGenLdscriptTarget name output layout pn).implicit
        = ["libshield_install.stamp", pn.getD name ++ "_install.stamp"]) ∧
    (name = "dummy" →
      (addGenLdscriptTarget name output layout pn).implicit
        = ["libshield_install.stamp"]) := by
  refine ⟨rfl, ?_, ?_⟩
  · intro h
    simp [addGenLdscriptTarget, h]
  · intro h
    simp [addGenLdscriptTarget, h]

/-- Witness for the amended C7 theorem: a real image with a package-name
override, and the `dummy` pseudo-image. -/
theorem ldscript_edge_implicit_deps_witness :
    (("app" : String) ≠ "dummy" ∧
      (addGenLdscriptTarget "app" "o" "l" (some "pkg")).implicit
        = ["libshield_install.stamp", "pkg_install.stamp"]) ∧
    (addGenLdscriptTarget "dummy" "o" "l" none).implicit
      = ["libshield_install.stamp"] :=
  ⟨⟨by decide,
    (ldscript_edge_implicit_deps "app" "o" "l" (some "pkg")).2.1 (by decide)⟩,
   (ldscript_edge_implicit_deps "dummy" "o" "l" none).2.2 rfl⟩

/-! ## Claim theorems: TaskMeta codec -/

theorem leBytes_length (w : Nat) : ∀ v, (leBytes w v).length = w := by
  induction w with
  | zero => intro v; rfl
  | succ w ih => intro v; simp [leBytes, ih]

theorem fromLE_leBytes (w : Nat) : ∀ v, v < 256 ^ w → fromLE (leBytes w v) = v := by
  induction w with
  | zero =>
    intro v hv
    simp only [Nat.pow_zero, Nat.lt_one_iff] at hv
    subst hv
    rfl
  | succ w ih =>
    intro v hv
    have hdiv : v / 256 < 256 ^ w := by
      rw [Nat.div_lt_iff_lt_mul (by norm_num)]
      calc v < 256 ^ (w + 1) := hv
        _ = 256 ^ w * 256 := by rw [Nat.pow_succ]
    simp only [leBytes, fromLE, ih (v / 256) hdiv]
    omega

theorem readLE_of_append (w v : Nat) (rest : List Nat) (h : v < 256 ^ w) :
    readLE w (leBytes w v ++ rest) = (v, rest) := by
  unfold readLE
  rw [List.take_left' (leBytes_length w v), List.drop_left' (leBytes_length w v),
    fromLE_leBytes w v h]

theorem list_eq_four_of_length {α : Type} (l : List α) (h : l.length = 4) :
    ∃ a b c d, l = [a, b, c, d] := by
  rcases l with _ | ⟨a, l⟩
  · simp only [List.length_nil] at h
    omega
  rcases l with _ | ⟨b, l⟩
  · simp only [List.length_cons, List.length_nil] at h
    omega
  rcases l with _ | ⟨c, l⟩
  · simp only [List.length_cons, List.length_nil] at h
    omega
  rcases l with _ | ⟨d, l⟩
  · simp only [List.length_cons, List.length_nil] at h
    omega
  rcases l with _ | ⟨e, l⟩
  · exact ⟨a, b, c, d, rfl⟩
  · simp only [List.length_cons] at h
    omega

theorem readLE4_of_append (l : List Nat) (rest : List Nat) (hlen : l.length = 4)
    (hbound : ∀ x ∈ l, x < 256 ^ 4) :
    readLE4 (l.flatMap (leBytes 4) ++ rest) = (l, rest) := by
  obtain ⟨a, b, c, d, rfl⟩ := list_eq_four_of_length l hlen
  have ha : a < 256 ^ 4 := hbound a (by simp)
  have hb : b < 256 ^ 4 := hbound b (by simp)
  have hc : c < 256 ^ 4 := hbound c (by simp)
  have hd : d < 256 ^ 4 := hbound d (by simp)
  have hsplit : ([a, b, c, d].flatMap (leBytes 4)) ++ rest
      = leBytes 4 a ++ (leBytes 4 b ++ (leBytes 4 c ++ (leBytes 4 d ++ rest))) := by
    simp [List.append_assoc]
  rw [hsplit]
  simp only [readLE4, readLE_of_append _ _ _ ha, readLE_of_append _ _ _ hb,
    readLE_of_append _ _ _ hc, readLE_of_append _ _ _ hd]

theorem sum_map_length_leBytes (l : List Nat) :
    (List.map (List.length ∘ leBytes 4) l).sum = 4 * l.length := by
  induction l with
  | nil => rfl
  | cons a l ih =>
    simp [Function.comp, leBytes_length, ih]
    omega

theorem taskMeta_encode_length (t : TaskMeta) (h : t.wf) :
    t.encode.length = TASK_META_SIZE := by
  obtain ⟨ha, hb, hc, hd, he, hf, hg, hh, hi, hj, hk, hl, hm, hn, ho, hp, hq,
    hr, hs, hshmlen, hshmb, ht, hdevlen, hdevb, hu, hdmalen, hdmab, hthlen,
    hthb, hmhlen, hmhb⟩ := h
  simp [TaskMeta.encode, TASK_META_SIZE, leBytes_length, sum_map_length_leBytes,
    hshmlen, hdevlen, hdmalen, hthlen, hmhlen]

/-- C4: decoding a byte buffer into a task descriptor fails with a format
error whenever the buffer length differs from the declared fixed record size,
or the magic field does not match the expected format-identifier constant, or
the version field does not match the expected version constant; and on the
encoding of any well-formed descriptor carrying the expected constants it
succeeds and returns exactly that descriptor (decode inverts encode). -/
theorem taskMeta_decode_spec (expectedMagic expectedVersion : Nat) :
    (∀ bs : List Nat, bs.length ≠ TASK_META_SIZE →
      taskMetaDecode expectedMagic expectedVersion bs
        = .error "size mismatch") ∧
    (∀ t : TaskMeta, t.wf → t.magic ≠ expectedMagic →
      taskMetaDecode expectedMagic expectedVersion t.encode
        = .error "bad magic") ∧
    (∀ t : TaskMeta, t.wf → t.magic = expectedMagic →
      t.version ≠ expectedVersion →
      taskMetaDecode expectedMagic expectedVersion t.encode
        = .error "bad version") ∧
    (∀ t : TaskMeta, t.wf → t.magic = expectedMagic →
      t.version = expectedVersion →
      taskMetaDecode expectedMagic expectedVersion t.encode = .ok t) := by
  have e8 : (2 : Nat) ^ 64 = 256 ^ 8 := by norm_num
  have e4 : (2 : Nat) ^ 32 = 256 ^ 4 := by norm_num
  have e2 : (2 : Nat) ^ 16 = 256 ^ 2 := by norm_num
  have e1 : (2 : Nat) ^ 8 = 256 ^ 1 := by norm_num
  refine ⟨?_, ?_, ?_, ?_⟩
  · intro bs h
    unfold taskMetaDecode
    rw [if_pos h]
  · intro t hwf hmne
    have hlen := taskMeta_encode_length t hwf
    have nc1 : ¬ (t.encode.length ≠ TASK_META_SIZE) := fun h => h hlen
    have b1 : t.magic < 256 ^ 8 := e8 ▸ hwf.1
    unfold taskMetaDecode
    rw [if_neg nc1]
    conv_lhs => rw [TaskMeta.encode]
    simp only [List.append_assoc]
    simp only [readLE_of_append _ _ _ b1]
    rw [if_pos hmne]
  · intro t hwf hmeq hvne
    have hlen := taskMeta_encode_length t hwf
    have nc1 : ¬ (t.encode.length ≠ TASK_META_SIZE) := fun h => h hlen
    have nc2 : ¬ (t.magic ≠ expectedMagic) := fun h => h hmeq
    have b1 : t.magic < 256 ^ 8 := e8 ▸ hwf.1
    have b2 : t.version < 256 ^ 4 := e4 ▸ hwf.2.1
    unfold taskMetaDecode
    rw [if_neg nc1]
    conv_lhs => rw [TaskMeta.encode]
    simp only [List.append_assoc]
    simp only [readLE_of_append _ _ _ b1]
    rw [if_neg nc2]
    simp only [readLE_of_append _ _ _ b2]
    rw [if_pos hvne]
  · intro t hwf hmeq hveq
    have hlen := taskMeta_encode_length t hwf
    obtain ⟨hA, hB, hC, hD, hE, hF, hG, hH, hI, hJ, hK, hL, hM, hN, hO, hP,
      hQ, hR, hS, hshmlen, hshmb, hT, hdevlen, hdevb, hU, hdmalen, hdmab,
      hthlen, hthb, hmhlen, hmhb⟩ := hwf
    have nc1 : ¬ (t.encode.length ≠ TASK_META_SIZE) := fun h => h hlen
    have nc2 : ¬ (t.magic ≠ expectedMagic) := fun h => h hmeq
    have nc3 : ¬ (t.version ≠ expectedVersion) := fun h => h hveq
    have b1 : t.magic < 256 ^ 8 := e8 ▸ hA
    have b2 : t.version < 256 ^ 4 := e4 ▸ hB
    have b3 : t.handle < 256 ^ 4 := e4 ▸ hC
    have b4 : t.priority < 256 ^ 1 := e1 ▸ hD
    have b5 : t.quantum < 256 ^ 1 := e1 ▸ hE
    have b6 : t.capabilities < 256 ^ 4 := e4 ▸ hF
    have b7 : t.flags < 256 ^ 4 := e4 ▸ hG
    have b8 : t.domain < 256 ^ 1 := e1 ▸ hH
    have b9 : t.s_text < 256 ^ 4 := e4 ▸ hI
    have b10 : t.text_size < 256 ^ 4 := e4 ▸ hJ
    have b11 : t.rodata_size < 256 ^ 4 := e4 ▸ hK
    have b12 : t.data_size < 256 ^ 4 := e4 ▸ hL
    have b13 : t.bss_size < 256 ^ 4 := e4 ▸ hM
    have b14 : t.heap_size < 256 ^ 4 := e4 ▸ hN
    have b15 : t.s_svcexchange < 256 ^ 4 := e4 ▸ hO
    have b16 : t.stack_size < 256 ^ 2 := e2 ▸ hP
    have b17 : t.entrypoint_offset < 256 ^ 2 := e2 ▸ hQ
    have b18 : t.finalize_offset < 256 ^ 2 := e2 ▸ hR
    have b19 : t.num_shm < 256 ^ 1 := e1 ▸ hS
    have b20 : t.num_dev < 256 ^ 1 := e1 ▸ hT
    have b21 : t.num_dma < 256 ^ 1 := e1 ▸ hU
    have hshmb' : ∀ x ∈ t.shms, x < 256 ^ 4 := fun x hx => e4 ▸ hshmb x hx
    have hdevb' : ∀ x ∈ t.devs, x < 256 ^ 4 := fun x hx => e4 ▸ hdevb x hx
    have hdmab' : ∀ x ∈ t.dmas, x < 256 ^ 4 := fun x hx => e4 ▸ hdmab x hx
    have htk1 : (t.task_hmac ++ t.metadata_hmac).take 32 = t.task_hmac :=
      List.take_left' hthlen
    have htk2 : (t.task_hmac ++ t.metadata_hmac).drop 32 = t.metadata_hmac :=
      List.drop_left' hthlen
    have htk3 : t.metadata_hmac.take 32 = t.metadata_hmac := by
      conv_lhs => rw [← hmhlen]
      rw [List.take_length]
    unfold taskMetaDecode
    rw [if_neg nc1]
    conv_lhs => rw [TaskMeta.encode]
    simp only [List.append_assoc]
    simp only [readLE_of_append _ _ _ b1]
    rw [if_neg nc2]
    simp only [readLE_of_append _ _ _ b2]
    rw [if_neg nc3]
    simp only [taskMetaOfBytes,
      readLE_of_append _ _ _ b1, readLE_of_append _ _ _ b2,
      readLE_of_append _ _ _ b3, readLE_of_append _ _ _ b4,
      readLE_of_append _ _ _ b5, readLE_of_append _ _ _ b6,
      readLE_of_append _ _ _ b7, readLE_of_append _ _ _ b8,
      readLE_of_append _ _ _ b9, readLE_of_append _ _ _ b10,
      readLE_of_append _ _ _ b11, readLE_of_append _ _ _ b12,
      readLE_of_append _ _ _ b13, readLE_of_append _ _ _ b14,
      readLE_of_append _ _ _ b15, readLE_of_append _ _ _ b16,
      readLE_of_append _ _ _ b17, readLE_of_append _ _ _ b18,
      readLE_of_append _ _ _ b19, readLE_of_append _ _ _ b20,
      readLE_of_append _ _ _ b21,
      readLE4_of_append _ _ hshmlen hshmb',
      readLE4_of_append _ _ hdevlen hdevb',
      readLE4_of_append _ _ hdmalen hdmab',
      htk1, htk2, htk3]

/-- A concrete well-formed task descriptor. -/
def taskMetaExample : TaskMeta :=
  { magic := 0x42544d4554534f50
    version := 1
    handle := 0x2000
    priority := 10
    quantum := 5
    capabilities := 0xff
    flags := 3
    domain := 1
    s_text := 0x08000000
    text_size := 0x1000
    rodata_size := 0x100
    data_size := 0x80
    bss_size := 0x40
    heap_size := 0x200
    s_svcexchange := 0x20000000
    stack_size := 0x400
    entrypoint_offset := 0x10
    finalize_offset := 0x20
    num_shm := 1
    shms := [7, 0, 0, 0]
    num_dev := 2
    devs := [1, 2, 0, 0]
    num_dma := 0
    dmas := [0, 0, 0, 0]
    task_hmac := List.replicate 32 0
    metadata_hmac := List.replicate 32 0 }

/-- Witness for C4: the concrete descriptor round-trips through
encode/decode, and an empty buffer is rejected for its length. -/
theorem taskMeta_decode_spec_witness :
    taskMetaExample.wf ∧
    taskMetaDecode 0x42544d4554534f50 1 taskMetaExample.encode
      = .ok taskMetaExample ∧
    ([] : List Nat).length ≠ TASK_META_SIZE ∧
    taskMetaDecode 0x42544d4554534f50 1 [] = .error "size mismatch" :=
  ⟨by decide,
   (taskMeta_decode_spec 0x42544d4554534f50 1).2.2.2 taskMetaExample
     (by decide) rfl rfl,
   by decide,
   (taskMeta_decode_spec 0x42544d4554534f50 1).1 [] (by decide)⟩

end Barbican
